import Mathlib

/-!
Shallow embedding of the emojicopier repository (src/emojicopier.py).

The embedded pieces are the ones the claims are about:

* `CopyAttachmentsView._resize_image` — the adaptive size-budget reducer
  (a `while len(image_bytes) > target_size` loop with no iteration cap);
  embedded as `resizeImage` with an explicit fuel argument, so that `none`
  means the Python loop has not terminated within that many iterations.
  Pillow (`Image.open` / `Image.reduce` / `Image.save`) is an external
  collaborator, so its operations are a parameter (`ImageApi`).
  Python float arithmetic `ceil(sqrt(len/target))` is embedded as the exact
  integer ceiling of the real square root of the ratio (`scaleDivisor`).

* `CopyAttachmentsView.copy_emoji` lines 295-300 — filename sanitization
  (`rfind "."` / slice, `re.sub(r"\W", "_", ...)`, left padding), embedded
  on `List Char` with a `String` wrapper.  Python `\w` is embedded over the
  code points actually exercised as alphanumeric-or-underscore.

* `BaseCopyView.on_copy` lines 179-222 — the replication engine: nested
  loops over selected guilds (outer) and selected items (inner), each pair
  dispatched to `copy_sticker`/`copy_emoji` on the item's location, with
  `HTTPException` caught per pair and every other exception propagating.
  The per-pair remote calls are abstracted as oracles returning an
  `AttemptResult`; an uncaught exception is `Except.error ()`.

* `CopyExpressionsView.copy_sticker` / `copy_emoji` and
  `CopyAttachmentsView.copy_sticker` / `copy_emoji` — the concrete remote
  call each pair performs, embedded as `RemoteCall` values (`none` where
  the Python method raises instead of calling the platform).

* The `max_values` expressions of `ExpressionSelect.__init__`,
  `AttachmentSelect.__init__` and `GuildSelect.__init__`.
-/

namespace EmojiCopier

/-- Binary payloads (Python `bytes`) are embedded as lists of byte values. -/
abbrev Bytes := List Nat

/-! ## Size-budget reducer (`CopyAttachmentsView._resize_image`) -/

/-- The Pillow operations the reducer uses, as an abstract collaborator:
`openImage` embeds `Image.open(BytesIO(...))`, `reduceImg` embeds
`Image.reduce(factor)`, `save` embeds `image.save(temp, format)` followed by
reading the temporary file back. -/
structure ImageApi (Img : Type) where
  openImage : Bytes → Img
  reduceImg : Img → Nat → Img
  save : Img → Option String → Bytes

/-- Ceiling square root on naturals: the least `k` with `q ≤ k * k`. -/
def ceilSqrt (q : Nat) : Nat :=
  if Nat.sqrt q * Nat.sqrt q = q then Nat.sqrt q else Nat.sqrt q + 1

/-- The integer reduction factor `ceil(sqrt(len(image_bytes) / target_size))`
of `_resize_image`, in exact arithmetic: the ceiling square root of the
ceiling of the ratio. -/
def scaleDivisor (len target : Nat) : Nat :=
  ceilSqrt ((len + target - 1) / target)

/-- `CopyAttachmentsView._resize_image`, with fuel.  `some bytes` means the
Python loop returns `bytes` within `fuel` iterations; `none` means it is
still running after `fuel` iterations (the source has no iteration cap, so
`none` for every fuel is an infinite loop). -/
def resizeImage {Img : Type} (api : ImageApi Img) (format : Option String)
    (targetSize : Nat) : Nat → Bytes → Option Bytes
  | 0, imageBytes =>
      if imageBytes.length ≤ targetSize then some imageBytes else none
  | fuel + 1, imageBytes =>
      if imageBytes.length ≤ targetSize then some imageBytes
      else
        let image := api.openImage imageBytes
        let reduced := api.reduceImg image (scaleDivisor imageBytes.length targetSize)
        resizeImage api format targetSize fuel (api.save reduced format)

/-! ## Filename sanitization (`CopyAttachmentsView.copy_emoji`) -/

/-- Python `str.rfind(c)`: the highest index at which `c` occurs, `-1` when
absent. -/
def rfindIdx (c : Char) (name : List Char) : Int :=
  match name.reverse.findIdx? (fun x => x = c) with
  | none => -1
  | some j => (name.length : Int) - 1 - (j : Int)

/-- Lines 296-297: `if (idx := name.rfind(".")) > 0: name = name[:idx]`. -/
def stripExt (name : List Char) : List Char :=
  let idx := rfindIdx '.' name
  if 0 < idx then name.take idx.toNat else name

/-- Embedding of Python regex `\w` on the exercised code points:
alphanumeric or underscore. -/
def isWordChar (c : Char) : Bool := c.isAlphanum || c = '_'

/-- Line 298: `re.sub(r"\W", "_", name)` — every non-word character becomes
an underscore. -/
def wordify (name : List Char) : List Char :=
  name.map (fun c => if isWordChar c then c else '_')

/-- Lines 295-300 of `copy_emoji`: strip a trailing extension when a dot
exists at a positive index, replace non-word characters, and left-pad with
one underscore when the result is shorter than 2 characters. -/
def sanitizeList (name : List Char) : List Char :=
  let n := wordify (stripExt name)
  if n.length < 2 then '_' :: n else n

/-- `sanitizeList` lifted to strings. -/
def sanitizeName (s : String) : String := ⟨sanitizeList s.data⟩

/-! ## Select `max_values` (`ExpressionSelect` / `AttachmentSelect` /
`GuildSelect`) -/

/-- `ExpressionSelect.__init__`: `max_values=min(25, len(expressions))`. -/
def expressionSelectMaxValues (numExpressions : Nat) : Nat :=
  min 25 numExpressions

/-- `AttachmentSelect.__init__`: `max_values=len(attachments)` — there is no
`min(25, ...)` in the source. -/
def attachmentSelectMaxValues (numAttachments : Nat) : Nat :=
  numAttachments

/-- `GuildSelect.__init__`: `max_values=min(25, len(guilds))`. -/
def guildSelectMaxValues (numGuilds : Nat) : Nat :=
  min 25 numGuilds

/-! ## Replication engine (`BaseCopyView.on_copy`) -/

/-- The `ExpressionLocation` enum of the source. -/
inductive ExpressionLocation where
  | message
  | reaction
  | sticker
  | status
  | bio
deriving DecidableEq, Repr

/-- A `discord.HTTPException`: the machine error code and human-readable
text the failure embed prints (`error.text (error.code)`). -/
structure HTTPError where
  text : String
  code : Nat
deriving DecidableEq, Repr

/-- What one awaited `copy_sticker`/`copy_emoji` call does: return normally,
raise an `HTTPException`, or raise any other exception (`fatal`). -/
inductive AttemptResult where
  | success
  | rejected (e : HTTPError)
  | fatal
deriving DecidableEq, Repr

/-- Lines 184-187 of `on_copy`: dispatch one pair to `copy_sticker` when the
item's location is `STICKER`, otherwise to `copy_emoji`.  `cs` and `ce` are
the subclass's `copy_sticker` and `copy_emoji` with the acting username
already applied, abstracted to their observable outcome. -/
def attemptPair {T G : Type} (cs ce : T → G → AttemptResult)
    (item : T) (loc : ExpressionLocation) (g : G) : AttemptResult :=
  if loc = .sticker then cs item g else ce item g

/-- The entry a pair contributes to the `succeeded` list, if any. -/
def succEntry {T G : Type} (cs ce : T → G → AttemptResult) (g : G)
    (p : T × ExpressionLocation) : Option (T × G) :=
  match attemptPair cs ce p.1 p.2 g with
  | .success => some (p.1, g)
  | _ => none

/-- The entry a pair contributes to the `failed` list, if any. -/
def failEntry {T G : Type} (cs ce : T → G → AttemptResult) (g : G)
    (p : T × ExpressionLocation) : Option (T × G × HTTPError) :=
  match attemptPair cs ce p.1 p.2 g with
  | .rejected e => some (p.1, g, e)
  | _ => none

/-- The inner loop of `on_copy` (lines 182-195): iterate the selected items
for one guild, appending to `succeeded` / `failed`; an uncaught exception
(`fatal`) propagates as `Except.error ()`. -/
def copyInner {T G : Type} (cs ce : T → G → AttemptResult) (g : G) :
    List (T × ExpressionLocation) → List (T × G) → List (T × G × HTTPError) →
    Except Unit (List (T × G) × List (T × G × HTTPError))
  | [], succeeded, failed => .ok (succeeded, failed)
  | p :: rest, succeeded, failed =>
    match attemptPair cs ce p.1 p.2 g with
    | .success => copyInner cs ce g rest (succeeded ++ [(p.1, g)]) failed
    | .rejected e => copyInner cs ce g rest succeeded (failed ++ [(p.1, g, e)])
    | .fatal => .error ()

/-- The outer loop of `on_copy` (line 181): iterate the selected guilds. -/
def copyOuter {T G : Type} (cs ce : T → G → AttemptResult)
    (items : List (T × ExpressionLocation)) :
    List G → List (T × G) → List (T × G × HTTPError) →
    Except Unit (List (T × G) × List (T × G × HTTPError))
  | [], succeeded, failed => .ok (succeeded, failed)
  | g :: gs, succeeded, failed =>
    match copyInner cs ce g items succeeded failed with
    | .ok (s, f) => copyOuter cs ce items gs s f
    | .error e => .error e

/-- The copy loops of `on_copy` started on empty accumulators: the
(`succeeded`, `failed`) lists when every attempt is accounted for, or
`Except.error ()` when an uncaught exception aborts the batch. -/
def onCopy {T G : Type} (cs ce : T → G → AttemptResult)
    (guilds : List G) (items : List (T × ExpressionLocation)) :
    Except Unit (List (T × G) × List (T × G × HTTPError)) :=
  copyOuter cs ce items guilds [] []

/-- The message `on_copy` finally shows (lines 196-222): a success count and
failure list when at least one outcome exists, or the
"Please select some expressions and servers." embed when both lists are
empty. -/
inductive ReplicationReport (T G : Type) where
  | selectPrompt
  | summary (succeededCount : Nat) (failures : List (T × G × HTTPError))
deriving DecidableEq

/-- Lines 196-221: fold the two lists into the final embeds. -/
def makeReport {T G : Type} (succeeded : List (T × G))
    (failed : List (T × G × HTTPError)) : ReplicationReport T G :=
  if succeeded.length = 0 ∧ failed.length = 0 then .selectPrompt
  else .summary succeeded.length failed

/-- The full run of `on_copy`: perform the copy loops, then build the
report; an uncaught exception yields no report at all. -/
def onCopyReport {T G : Type} (cs ce : T → G → AttemptResult)
    (guilds : List G) (items : List (T × ExpressionLocation)) :
    Except Unit (ReplicationReport T G) :=
  match onCopy cs ce guilds items with
  | .ok (s, f) => .ok (makeReport s f)
  | .error e => .error e

/-! ## Concrete per-pair remote calls (`CopyExpressionsView`,
`CopyAttachmentsView`) -/

/-- A `discord.GuildSticker` as `copy_sticker` reads it. -/
structure GuildSticker where
  name : String
  description : String
  emoji : String
  content : Bytes
deriving DecidableEq

/-- An `Emoji` or `PartialEmoji` as `copy_emoji` reads it. -/
structure EmojiAsset where
  name : String
  content : Bytes
deriving DecidableEq

/-- The `Expression` union of the source, as a tagged sum. -/
inductive Expression where
  | sticker (s : GuildSticker)
  | emoji (e : EmojiAsset)
deriving DecidableEq

/-- The display name accessor `item.name`. -/
def Expression.itemName : Expression → String
  | .sticker s => s.name
  | .emoji e => e.name

/-- The binary content accessor (`item.read()` / `item.to_file()`). -/
def Expression.content : Expression → Bytes
  | .sticker s => s.content
  | .emoji e => e.content

/-- A `discord.Attachment` as `CopyAttachmentsView` reads it. -/
structure Attachment where
  filename : String
  contentType : Option String
  content : Bytes
deriving DecidableEq

/-- The remote mutating call one pair performs: `guild.create_sticker` or
`guild.create_custom_emoji`, with the arguments the source passes. -/
inductive RemoteCall where
  | createSticker (name description emoji : String) (file : Bytes)
      (reason : String)
  | createEmoji (name : String) (image : Bytes) (reason : String)
deriving DecidableEq

/-- `CopyExpressionsView.copy_sticker`: assert the item is a `GuildSticker`
(`none` embeds the fatal `AssertionError` on a non-sticker), then call
`guild.create_sticker(name, description, emoji, file, reason)`. -/
def expressionsCopySticker (username : String) :
    Expression → Option RemoteCall
  | .sticker s =>
      some (.createSticker s.name s.description s.emoji s.content
        ("Copying sticker (requested by @" ++ username ++ ")"))
  | .emoji _ => none

/-- `CopyExpressionsView.copy_emoji`: call
`guild.create_custom_emoji(name=item.name, image=await item.read(), ...)`
with the item's raw bytes. -/
def expressionsCopyEmoji (username : String) (item : Expression) :
    RemoteCall :=
  .createEmoji item.itemName item.content
    ("Copying emoji (requested by @" ++ username ++ ")")

/-- The `if location == ExpressionLocation.STICKER` dispatch of `on_copy`,
at the level of the remote call made, for `CopyExpressionsView`. -/
def expressionAttemptCall (username : String) (item : Expression)
    (loc : ExpressionLocation) : Option RemoteCall :=
  if loc = .sticker then expressionsCopySticker username item
  else some (expressionsCopyEmoji username item)

/-- Line 304 of `copy_emoji`:
`None if item.content_type is None else item.content_type.split("/")[-1]`. -/
def attachmentFormat (contentType : Option String) : Option String :=
  contentType.map (fun t => (t.splitOn "/").getLastD "")

/-- `CopyAttachmentsView.copy_emoji`: sanitize the filename, reduce the
bytes to the hardcoded 256000-byte budget, then call
`guild.create_custom_emoji`.  `none` means `_resize_image` has not returned
within `fuel` iterations, so no remote call happens. -/
def attachmentsCopyEmoji {Img : Type} (api : ImageApi Img) (fuel : Nat)
    (username : String) (item : Attachment) : Option RemoteCall :=
  (resizeImage api (attachmentFormat item.contentType) 256000 fuel
      item.content).map
    (fun imageBytes =>
      .createEmoji (sanitizeName item.filename) imageBytes
        ("Uploading emoji (requested by @" ++ username ++ ")"))

/-- The location dispatch of `on_copy` for `CopyAttachmentsView`:
`copy_sticker` always raises a plain `Exception`
("Attachments should never be uploaded as stickers!"), embedded as `none`
(no remote call, fatal). -/
def attachmentAttemptCall {Img : Type} (api : ImageApi Img) (fuel : Nat)
    (username : String) (item : Attachment) (loc : ExpressionLocation) :
    Option RemoteCall :=
  if loc = .sticker then none
  else attachmentsCopyEmoji api fuel username item

/-- A concrete `ImageApi` valuation under which re-encoding never shrinks:
every `save` call returns a 256001-byte payload.  This realizes the
non-convergence scenario of the spec (an image whose re-encoded size never
drops below the budget). -/
def stuckApi : ImageApi Unit where
  openImage := fun _ => ()
  reduceImg := fun _ _ => ()
  save := fun _ _ => List.replicate 256001 0

/-- A payload one byte over the 256000-byte budget, already the fixed point
of `stuckApi.save`. -/
def stuckBytes : Bytes := List.replicate 256001 0

/-! ## Helper lemmas about the engine loops -/

theorem copyInner_spec {T G : Type} (cs ce : T → G → AttemptResult) (g : G)
    (items : List (T × ExpressionLocation)) (succeeded : List (T × G))
    (failed : List (T × G × HTTPError))
    (h : ∀ p ∈ items, attemptPair cs ce p.1 p.2 g ≠ .fatal) :
    copyInner cs ce g items succeeded failed =
      .ok (succeeded ++ items.filterMap (succEntry cs ce g),
           failed ++ items.filterMap (failEntry cs ce g)) := by
  induction items generalizing succeeded failed with
  | nil => simp [copyInner]
  | cons p rest ih =>
    have hp := h p (List.mem_cons_self _ _)
    have hrest : ∀ q ∈ rest, attemptPair cs ce q.1 q.2 g ≠ .fatal :=
      fun q hq => h q (List.mem_cons_of_mem _ hq)
    cases hap : attemptPair cs ce p.1 p.2 g with
    | success =>
      simp only [copyInner, hap, ih _ _ hrest, List.filterMap_cons, succEntry, failEntry]
      simp [hap, List.append_assoc]
    | rejected e =>
      simp only [copyInner, hap, ih _ _ hrest, List.filterMap_cons, succEntry, failEntry]
      simp [hap, List.append_assoc]
    | fatal => exact absurd hap hp

theorem copyOuter_spec {T G : Type} (cs ce : T → G → AttemptResult)
    (items : List (T × ExpressionLocation)) (guilds : List G)
    (succeeded : List (T × G)) (failed : List (T × G × HTTPError))
    (h : ∀ g ∈ guilds, ∀ p ∈ items, attemptPair cs ce p.1 p.2 g ≠ .fatal) :
    copyOuter cs ce items guilds succeeded failed =
      .ok (succeeded ++ guilds.flatMap (fun g => items.filterMap (succEntry cs ce g)),
           failed ++ guilds.flatMap (fun g => items.filterMap (failEntry cs ce g))) := by
  induction guilds generalizing succeeded failed with
  | nil => simp [copyOuter]
  | cons g gs ih =>
    have hg := h g (List.mem_cons_self _ _)
    have hgs : ∀ g' ∈ gs, ∀ p ∈ items, attemptPair cs ce p.1 p.2 g' ≠ .fatal :=
      fun g' hg' => h g' (List.mem_cons_of_mem _ hg')
    simp only [copyOuter, copyInner_spec cs ce g items succeeded failed hg, ih _ _ hgs,
      List.flatMap_cons, List.append_assoc]

theorem entry_count {T G : Type} (cs ce : T → G → AttemptResult) (g : G)
    (items : List (T × ExpressionLocation))
    (h : ∀ p ∈ items, attemptPair cs ce p.1 p.2 g ≠ .fatal) :
    (items.filterMap (succEntry cs ce g)).length +
      (items.filterMap (failEntry cs ce g)).length = items.length := by
  induction items with
  | nil => simp
  | cons p rest ih =>
    have hp := h p (List.mem_cons_self _ _)
    have hrest : ∀ q ∈ rest, attemptPair cs ce q.1 q.2 g ≠ .fatal :=
      fun q hq => h q (List.mem_cons_of_mem _ hq)
    cases hap : attemptPair cs ce p.1 p.2 g with
    | success =>
      simp only [List.filterMap_cons, succEntry, failEntry, hap, List.length_cons]
      have := ih hrest
      omega
    | rejected e =>
      simp only [List.filterMap_cons, succEntry, failEntry, hap, List.length_cons]
      have := ih hrest
      omega
    | fatal => exact absurd hap hp

theorem total_count {T G : Type} (cs ce : T → G → AttemptResult)
    (items : List (T × ExpressionLocation)) (guilds : List G)
    (h : ∀ g ∈ guilds, ∀ p ∈ items, attemptPair cs ce p.1 p.2 g ≠ .fatal) :
    (guilds.flatMap (fun g => items.filterMap (succEntry cs ce g))).length +
      (guilds.flatMap (fun g => items.filterMap (failEntry cs ce g))).length =
      guilds.length * items.length := by
  induction guilds with
  | nil => simp
  | cons g gs ih =>
    have hg := h g (List.mem_cons_self _ _)
    have hgs : ∀ g' ∈ gs, ∀ p ∈ items, attemptPair cs ce p.1 p.2 g' ≠ .fatal :=
      fun g' hg' => h g' (List.mem_cons_of_mem _ hg')
    have h1 := entry_count cs ce g items hg
    have h2 := ih hgs
    simp only [List.flatMap_cons, List.length_append, List.length_cons]
    calc (items.filterMap (succEntry cs ce g)).length +
          (gs.flatMap fun g => items.filterMap (succEntry cs ce g)).length +
          ((items.filterMap (failEntry cs ce g)).length +
           (gs.flatMap fun g => items.filterMap (failEntry cs ce g)).length)
        = (gs.length + 1) * items.length := by
          rw [Nat.add_mul, Nat.one_mul]
          omega
      _ = _ := rfl

theorem copyInner_fatal {T G : Type} (cs ce : T → G → AttemptResult) (g : G)
    (items : List (T × ExpressionLocation)) (succeeded : List (T × G))
    (failed : List (T × G × HTTPError))
    (h : ∃ p ∈ items, attemptPair cs ce p.1 p.2 g = .fatal) :
    copyInner cs ce g items succeeded failed = .error () := by
  induction items generalizing succeeded failed with
  | nil => simp at h
  | cons p rest ih =>
    obtain ⟨q, hq, hfat⟩ := h
    cases hap : attemptPair cs ce p.1 p.2 g with
    | success =>
      simp only [copyInner, hap]
      apply ih
      rcases List.mem_cons.mp hq with rfl | hq'
      · exact absurd hfat (by simp [hap])
      · exact ⟨q, hq', hfat⟩
    | rejected e =>
      simp only [copyInner, hap]
      apply ih
      rcases List.mem_cons.mp hq with rfl | hq'
      · exact absurd hfat (by simp [hap])
      · exact ⟨q, hq', hfat⟩
    | fatal => simp only [copyInner, hap]

theorem copyOuter_fatal {T G : Type} (cs ce : T → G → AttemptResult)
    (items : List (T × ExpressionLocation)) (guilds : List G)
    (succeeded : List (T × G)) (failed : List (T × G × HTTPError))
    (h : ∃ g ∈ guilds, ∃ p ∈ items, attemptPair cs ce p.1 p.2 g = .fatal) :
    copyOuter cs ce items guilds succeeded failed = .error () := by
  induction guilds generalizing succeeded failed with
  | nil => simp at h
  | cons g gs ih =>
    obtain ⟨g', hg', hfat⟩ := h
    by_cases hg : ∃ p ∈ items, attemptPair cs ce p.1 p.2 g = .fatal
    · simp only [copyOuter, copyInner_fatal cs ce g items succeeded failed hg]
    · have hnf : ∀ p ∈ items, attemptPair cs ce p.1 p.2 g ≠ .fatal := by
        intro p hp hfp
        exact hg ⟨p, hp, hfp⟩
      simp only [copyOuter, copyInner_spec cs ce g items succeeded failed hnf]
      apply ih
      rcases List.mem_cons.mp hg' with rfl | hgs
      · exact absurd hfat.choose_spec.2 (hnf _ hfat.choose_spec.1)
      · exact ⟨g', hgs, hfat⟩

/-! ## Helper lemmas about the reducer -/

theorem resize_length_le {Img : Type} (api : ImageApi Img) (format : Option String)
    (target : Nat) (fuel : Nat) (b out : Bytes)
    (h : resizeImage api format target fuel b = some out) :
    out.length ≤ target := by
  induction fuel generalizing b with
  | zero =>
    rw [resizeImage] at h
    by_cases hb : b.length ≤ target
    · rw [if_pos hb] at h
      cases h
      exact hb
    · rw [if_neg hb] at h
      cases h
  | succ n ih =>
    rw [resizeImage] at h
    by_cases hb : b.length ≤ target
    · rw [if_pos hb] at h
      cases h
      exact hb
    · rw [if_neg hb] at h
      exact ih _ h

theorem ceilSqrt_spec (q : Nat) :
    q ≤ ceilSqrt q * ceilSqrt q ∧ ∀ k, q ≤ k * k → ceilSqrt q ≤ k := by
  have hs : Nat.sqrt q * Nat.sqrt q ≤ q := Nat.sqrt_le q
  constructor
  · rw [ceilSqrt]
    by_cases hex : Nat.sqrt q * Nat.sqrt q = q
    · rw [if_pos hex]
      omega
    · rw [if_neg hex]
      have hlt : q < (Nat.sqrt q + 1) * (Nat.sqrt q + 1) :=
        Nat.sqrt_lt.mp (Nat.lt_succ_of_le (Nat.le_refl _))
      exact Nat.le_of_lt hlt
  · intro k hk
    rw [ceilSqrt]
    by_cases hex : Nat.sqrt q * Nat.sqrt q = q
    · rw [if_pos hex]
      by_contra hlt
      push_neg at hlt
      have : k * k < Nat.sqrt q * Nat.sqrt q := Nat.mul_self_lt_mul_self hlt
      omega
    · rw [if_neg hex]
      by_contra hlt
      push_neg at hlt
      have hks : k ≤ Nat.sqrt q := by omega
      have : k * k ≤ Nat.sqrt q * Nat.sqrt q := Nat.mul_le_mul hks hks
      omega

theorem ceilDiv_le_iff {target : Nat} (h : 0 < target) (len c : Nat) :
    (len + target - 1) / target ≤ c ↔ len ≤ c * target := by
  rw [Nat.div_le_iff_le_mul_add_pred h, Nat.mul_comm target c]
  generalize c * target = X
  omega

theorem scaleDivisor_spec {target : Nat} (h : 0 < target) (len : Nat) :
    len ≤ scaleDivisor len target * scaleDivisor len target * target ∧
    ∀ k, len ≤ k * k * target → scaleDivisor len target ≤ k := by
  have hc := ceilSqrt_spec ((len + target - 1) / target)
  constructor
  · rw [scaleDivisor]
    exact (ceilDiv_le_iff h len _).mp hc.1
  · intro k hk
    rw [scaleDivisor]
    exact hc.2 k ((ceilDiv_le_iff h len (k * k)).mpr hk)

/-! ## Helper lemmas about filename sanitization -/

theorem stripExt_ne_nil {name : List Char} (h : name ≠ []) : stripExt name ≠ [] := by
  rw [stripExt]
  by_cases hidx : 0 < rfindIdx '.' name
  · rw [if_pos hidx]
    cases name with
    | nil => exact absurd rfl h
    | cons a l =>
      have h0 : 0 < (rfindIdx '.' (a :: l)).toNat := by omega
      obtain ⟨k, hk⟩ : ∃ k, (rfindIdx '.' (a :: l)).toNat = k + 1 :=
        ⟨_, (Nat.succ_pred_eq_of_pos h0).symm⟩
      rw [hk, List.take_cons (Nat.succ_pos k)]
      exact List.cons_ne_nil a _
  · rw [if_neg hidx]
    exact h

theorem wordify_mem_isWordChar {name : List Char} {c : Char}
    (h : c ∈ wordify name) : isWordChar c = true := by
  rw [wordify, List.mem_map] at h
  obtain ⟨a, _, rfl⟩ := h
  by_cases ha : isWordChar a
  · rw [if_pos ha]
    exact ha
  · rw [if_neg ha]
    decide

theorem sanitizeList_props {name : List Char} (h : name ≠ []) :
    2 ≤ (sanitizeList name).length ∧
      ∀ c ∈ sanitizeList name, isWordChar c = true := by
  rw [sanitizeList]
  have hne : wordify (stripExt name) ≠ [] := by
    rw [wordify]
    simp only [ne_eq, List.map_eq_nil_iff]
    exact stripExt_ne_nil h
  have hlen : 1 ≤ (wordify (stripExt name)).length :=
    List.length_pos.mpr hne
  by_cases hsmall : (wordify (stripExt name)).length < 2
  · rw [if_pos hsmall]
    constructor
    · simp only [List.length_cons]
      omega
    · intro c hc
      rcases List.mem_cons.mp hc with rfl | hc'
      · decide
      · exact wordify_mem_isWordChar hc'
  · rw [if_neg hsmall]
    exact ⟨by omega, fun c hc => wordify_mem_isWordChar hc⟩

/-! ## Claim theorems -/

/-- Claim C1: with `m` committed items and `n` committed destinations, when
every creation call either returns or raises a `RemoteRejection`
(no `fatal` attempt), a run with `m ≥ 1` and `n ≥ 1` produces a report whose
`succeededCount` plus number of failure entries is exactly `m * n`; and when
`m = 0` or `n = 0` the run yields the Empty report whatever the creation
capabilities do — the quantification over `cs'` and `ce'` expresses that no
creation call can influence (or occur in) the short-circuit run. -/
theorem onCopy_outcome_count {T G : Type} (cs ce : T → G → AttemptResult)
    (guilds : List G) (items : List (T × ExpressionLocation)) :
    ((∀ g ∈ guilds, ∀ p ∈ items, attemptPair cs ce p.1 p.2 g ≠ .fatal) →
      1 ≤ items.length → 1 ≤ guilds.length →
      ∃ c f, onCopyReport cs ce guilds items = .ok (.summary c f) ∧
        c + f.length = items.length * guilds.length)
    ∧ ((items = [] ∨ guilds = []) →
      ∀ cs' ce' : T → G → AttemptResult,
        onCopyReport cs' ce' guilds items = .ok .selectPrompt) := by
  constructor
  · intro h hm hn
    have hspec := copyOuter_spec cs ce items guilds [] [] h
    have hcount := total_count cs ce items guilds h
    refine ⟨(guilds.flatMap (fun g => items.filterMap (succEntry cs ce g))).length,
      guilds.flatMap (fun g => items.filterMap (failEntry cs ce g)), ?_, ?_⟩
    · rw [onCopyReport, onCopy, hspec]
      simp only [List.nil_append]
      rw [makeReport, if_neg]
      intro ⟨h1, h2⟩
      rw [h1, h2] at hcount
      have : 1 ≤ guilds.length * items.length := Nat.mul_le_mul hn hm
      omega
    · rw [hcount, Nat.mul_comm]
  · intro hempty cs' ce'
    have hnf : ∀ g ∈ guilds, ∀ p ∈ items, attemptPair cs' ce' p.1 p.2 g ≠ .fatal := by
      rcases hempty with rfl | rfl
      · intro g _ p hp
        simp at hp
      · intro g hg
        simp at hg
    have hspec := copyOuter_spec cs' ce' items guilds [] [] hnf
    have hz := total_count cs' ce' items guilds hnf
    rw [onCopyReport, onCopy, hspec]
    simp only [List.nil_append]
    have hzz : guilds.length * items.length = 0 := by
      rcases hempty with rfl | rfl <;> simp
    rw [hzz] at hz
    rw [makeReport, if_pos]
    omega

/-- Witness for C1 at one item, one destination, all calls succeeding. -/
theorem onCopy_outcome_count_witness :
    ∃ c f, onCopyReport (fun (_ : Nat) (_ : Nat) => AttemptResult.success)
        (fun _ _ => .success) [0] [((0 : Nat), ExpressionLocation.message)] =
      .ok (.summary c f) ∧ c + f.length = 1 :=
  (onCopy_outcome_count _ _ _ _).1 (by decide) (by decide) (by decide)

/-- Claim C2: in a run with no fatal attempt, the failure list is exactly
the destination-major, item-minor traversal of the cross product filtered to
its rejected pairs — so failures appear in attempt order — and for any split
of the destination order, all failure entries of the earlier destinations
precede all failure entries of the later ones. -/
theorem onCopy_failure_order {T G : Type} (cs ce : T → G → AttemptResult)
    (guilds : List G) (items : List (T × ExpressionLocation))
    (h : ∀ g ∈ guilds, ∀ p ∈ items, attemptPair cs ce p.1 p.2 g ≠ .fatal) :
    onCopy cs ce guilds items =
      .ok (guilds.flatMap (fun g => items.filterMap (succEntry cs ce g)),
           guilds.flatMap (fun g => items.filterMap (failEntry cs ce g)))
    ∧ ∀ gs1 gs2, guilds = gs1 ++ gs2 →
      guilds.flatMap (fun g => items.filterMap (failEntry cs ce g)) =
        (gs1.flatMap fun g => items.filterMap (failEntry cs ce g)) ++
        (gs2.flatMap fun g => items.filterMap (failEntry cs ce g)) := by
  constructor
  · have hspec := copyOuter_spec cs ce items guilds [] [] h
    rw [onCopy, hspec]
    simp
  · intro gs1 gs2 hsplit
    rw [hsplit, List.flatMap_append]

/-- Witness for C2: two destinations, one item, `copy_emoji` rejected at
both destinations; the failure list holds destination 0's entry before
destination 1's. -/
theorem onCopy_failure_order_witness :
    onCopy (fun (_ : Nat) (_ : Nat) => AttemptResult.success)
        (fun _ g => .rejected ⟨"err", g⟩) [0, 1] [((5 : Nat), .message)] =
      .ok ([], [(5, 0, ⟨"err", 0⟩), (5, 1, ⟨"err", 1⟩)]) := by
  rw [(onCopy_failure_order _ _ _ _ (by decide)).1]
  rfl

/-- Claim C3: a `RemoteRejection` (`HTTPException`) on a pair is recorded as
a `Failed(item, destination, reason)` entry while the run still completes
with a report (first conjunct); any other exception on an attempted pair
aborts the whole batch with no report (second conjunct); and
`CopyAttachmentsView.copy_sticker` is such a fatal path — it performs no
remote call (third conjunct). -/
theorem onCopy_error_handling {T G : Type} (cs ce : T → G → AttemptResult)
    (guilds : List G) (items : List (T × ExpressionLocation)) :
    ((∀ g ∈ guilds, ∀ p ∈ items, attemptPair cs ce p.1 p.2 g ≠ .fatal) →
      ∃ s f, onCopy cs ce guilds items = .ok (s, f) ∧
        ∀ p ∈ items, ∀ g ∈ guilds, ∀ e,
          attemptPair cs ce p.1 p.2 g = .rejected e → (p.1, g, e) ∈ f)
    ∧ ((∃ g ∈ guilds, ∃ p ∈ items, attemptPair cs ce p.1 p.2 g = .fatal) →
      onCopy cs ce guilds items = .error ())
    ∧ (∀ (Img : Type) (api : ImageApi Img) (fuel : Nat) (u : String)
        (att : Attachment), attachmentAttemptCall api fuel u att .sticker = none) := by
  refine ⟨?_, ?_, ?_⟩
  · intro h
    have hspec := copyOuter_spec cs ce items guilds [] [] h
    refine ⟨_, _, by rw [onCopy, hspec], ?_⟩
    intro p hp g hg e hrej
    simp only [List.nil_append]
    rw [List.mem_flatMap]
    refine ⟨g, hg, ?_⟩
    rw [List.mem_filterMap]
    exact ⟨p, hp, by rw [failEntry, hrej]⟩
  · intro h
    exact copyOuter_fatal cs ce items guilds [] [] h
  · intro Img api fuel u att
    rw [attachmentAttemptCall, if_pos rfl]

/-- Witness for C3: a rejected pair lands in the failure list and the run
returns a report; a fatal pair aborts the run with no report. -/
theorem onCopy_error_handling_witness :
    (∃ s f, onCopy (fun (_ : Nat) (_ : Nat) => AttemptResult.rejected ⟨"e", 7⟩)
        (fun _ _ => .rejected ⟨"e", 7⟩) [0] [((0 : Nat), .message)] =
          .ok (s, f) ∧ ((0 : Nat), (0 : Nat), HTTPError.mk "e" 7) ∈ f)
    ∧ onCopy (fun (_ : Nat) (_ : Nat) => AttemptResult.fatal) (fun _ _ => .fatal)
        [0] [((0 : Nat), .message)] = .error () := by
  constructor
  · obtain ⟨s, f, hok, hmem⟩ :=
      (onCopy_error_handling (fun (_ : Nat) (_ : Nat) => AttemptResult.rejected ⟨"e", 7⟩)
        (fun _ _ => .rejected ⟨"e", 7⟩) [0] [((0 : Nat), .message)]).1 (by decide)
    exact ⟨s, f, hok, hmem ((0 : Nat), .message) (by decide) 0 (by decide) ⟨"e", 7⟩ (by decide)⟩
  · exact (onCopy_error_handling _ _ _ _).2.1 (by decide)

/-- Claim C4: a sticker-kind pair invokes `create_sticker` with the item's
name, description, emoji hint and binary content; a non-sticker pair invokes
`create_custom_emoji`, with the item's raw bytes for emoji items and, for
attachment items, the bytes reduced by `_resize_image` to the fixed
256000-byte budget (so the uploaded content is within budget). -/
theorem copy_call_routing :
    ∀ (u : String) (s : GuildSticker) (e : EmojiAsset) (loc : ExpressionLocation),
      (expressionAttemptCall u (.sticker s) .sticker =
        some (.createSticker s.name s.description s.emoji s.content
          ("Copying sticker (requested by @" ++ u ++ ")")))
      ∧ (loc ≠ .sticker →
          expressionAttemptCall u (.emoji e) loc =
            some (.createEmoji e.name e.content
              ("Copying emoji (requested by @" ++ u ++ ")")))
      ∧ ∀ (Img : Type) (api : ImageApi Img) (fuel : Nat) (att : Attachment)
          (out : Bytes), loc ≠ .sticker →
          resizeImage api (attachmentFormat att.contentType) 256000 fuel
              att.content = some out →
          attachmentAttemptCall api fuel u att loc =
              some (.createEmoji (sanitizeName att.filename) out
                ("Uploading emoji (requested by @" ++ u ++ ")"))
            ∧ out.length ≤ 256000 := by
  intro u s e loc
  refine ⟨?_, ?_, ?_⟩
  · rw [expressionAttemptCall, if_pos rfl, expressionsCopySticker]
  · intro hloc
    rw [expressionAttemptCall, if_neg hloc]
    rfl
  · intro Img api fuel att out hloc hresize
    constructor
    · rw [attachmentAttemptCall, if_neg hloc, attachmentsCopyEmoji, hresize]
      rfl
    · exact resize_length_le api _ 256000 fuel att.content out hresize

/-- Witness for C4 at concrete sticker, emoji and attachment items. -/
theorem copy_call_routing_witness :
    (expressionAttemptCall "u" (.sticker ⟨"n", "d", "e", [7]⟩) .sticker =
      some (.createSticker "n" "d" "e" [7]
        "Copying sticker (requested by @u)"))
    ∧ (expressionAttemptCall "u" (.emoji ⟨"m", [8]⟩) .message =
        some (.createEmoji "m" [8] "Copying emoji (requested by @u)"))
    ∧ (attachmentAttemptCall stuckApi 0 "u" ⟨"a.png", none, [9]⟩ .message =
        some (.createEmoji (sanitizeName "a.png") [9]
          "Uploading emoji (requested by @u)")
      ∧ ([9] : Bytes).length ≤ 256000) := by
  have h := copy_call_routing "u" ⟨"n", "d", "e", [7]⟩ ⟨"m", [8]⟩ .message
  have hs := copy_call_routing "u" ⟨"n", "d", "e", [7]⟩ ⟨"m", [8]⟩ .sticker
  refine ⟨hs.1, h.2.1 (by decide), h.2.2 Unit stuckApi 0 ⟨"a.png", none, [9]⟩ [9]
    (by decide) (by decide)⟩

/-- Claim C5 (code bug): the reduction loop of `_resize_image` has no
iteration cap and no `ReducerNonConvergence` signal.  Under a codec whose
re-encoding never drops below the budget, the loop runs forever: for every
iteration bound `fuel` it has not returned, and no distinct catchable error
exists in the source to be raised. -/
theorem resizeImage_nonterminating (fuel : Nat) :
    resizeImage stuckApi none 256000 fuel stuckBytes = none := by
  have hlen : (stuckBytes : Bytes).length = 256001 := by
    rw [stuckBytes]
    exact List.length_replicate _ _
  induction fuel with
  | zero => rw [resizeImage, if_neg (by omega)]
  | succ n ih =>
    rw [resizeImage, if_neg (by omega)]
    exact ih

/-- Claim C6: when the input already fits the budget, `_resize_image`
returns it unchanged for every codec (so no decode is ever consulted), and
any value the reducer returns is a fixed point of a further reduction with
any codec, format and iteration allowance. -/
theorem resizeImage_noop_idempotent :
    ∀ (Img : Type) (api : ImageApi Img) (format : Option String)
      (budget fuel : Nat) (b : Bytes),
      (b.length ≤ budget → resizeImage api format budget fuel b = some b)
      ∧ ∀ out, resizeImage api format budget fuel b = some out →
          ∀ (Img' : Type) (api' : ImageApi Img') (format' : Option String)
            (fuel' : Nat), resizeImage api' format' budget fuel' out = some out := by
  have fast : ∀ (Img : Type) (api : ImageApi Img) (format : Option String)
      (budget fuel : Nat) (b : Bytes), b.length ≤ budget →
      resizeImage api format budget fuel b = some b := by
    intro Img api format budget fuel b hb
    cases fuel with
    | zero => rw [resizeImage, if_pos hb]
    | succ n => rw [resizeImage, if_pos hb]
  intro Img api format budget fuel b
  refine ⟨fast Img api format budget fuel b, ?_⟩
  intro out hout Img' api' format' fuel'
  exact fast Img' api' format' budget fuel' out
    (resize_length_le api format budget fuel b out hout)

/-- Witness for C6: a two-byte payload under a three-byte budget is returned
unchanged, and reducing that output again returns it unchanged. -/
theorem resizeImage_noop_idempotent_witness :
    resizeImage stuckApi none 3 5 [1, 2] = some [1, 2] := by
  have h := resizeImage_noop_idempotent Unit stuckApi none 3 0 [1, 2]
  exact h.2 [1, 2] (h.1 (by decide)) Unit stuckApi none 5

/-- Claim C7: when the payload exceeds the budget, one iteration decodes the
current bytes, downsamples by the integer divisor `ceil(sqrt(len/budget))`
(characterized exactly as the least `k` with `len ≤ k² · budget`),
re-encodes, and recurses on the fresh encoding; and whatever the reducer
returns has length at most the budget. -/
theorem resizeImage_step_and_budget :
    ∀ (Img : Type) (api : ImageApi Img) (format : Option String)
      (target fuel : Nat) (b : Bytes),
      (target < b.length →
        resizeImage api format target (fuel + 1) b =
          resizeImage api format target fuel
            (api.save (api.reduceImg (api.openImage b)
              (scaleDivisor b.length target)) format))
      ∧ (∀ out, resizeImage api format target fuel b = some out →
          out.length ≤ target)
      ∧ (0 < target →
          b.length ≤ scaleDivisor b.length target * scaleDivisor b.length target * target
          ∧ ∀ k, b.length ≤ k * k * target → scaleDivisor b.length target ≤ k) := by
  intro Img api format target fuel b
  refine ⟨?_, ?_, ?_⟩
  · intro hgt
    rw [resizeImage, if_neg (by omega)]
  · intro out hout
    exact resize_length_le api format target fuel b out hout
  · intro htarget
    exact scaleDivisor_spec htarget b.length

/-- Witness for C7: one concrete loop step on an oversized payload, the
scale-divisor bound at length 3 and budget 2, and the budget post-condition
on an in-budget payload. -/
theorem resizeImage_step_and_budget_witness :
    (resizeImage stuckApi none 2 1 [0, 0, 0] =
      resizeImage stuckApi none 2 0
        (stuckApi.save (stuckApi.reduceImg (stuckApi.openImage [0, 0, 0])
          (scaleDivisor 3 2)) none))
    ∧ (3 : Nat) ≤ scaleDivisor 3 2 * scaleDivisor 3 2 * 2
    ∧ ([] : Bytes).length ≤ 2 := by
  have h1 := resizeImage_step_and_budget Unit stuckApi none 2 0 [0, 0, 0]
  have h2 := resizeImage_step_and_budget Unit stuckApi none 2 0 ([] : Bytes)
  exact ⟨h1.1 (by decide), (h1.2.2 (by decide)).1, h2.2.1 [] (by decide)⟩

/-- Claim C8: the derived display name strips a trailing extension when a
dot exists at a positive index, replaces non-word characters with
underscores, and left-pads to the 2-character minimum: filename
"my pic!!.png" derives "my_pic__", filename ".x" derives "_x" (length 2),
and a 1-character filename is padded with exactly one underscore. -/
theorem sanitizeName_examples :
    sanitizeName "my pic!!.png" = "my_pic__" ∧
      sanitizeName ".x" = "_x" ∧
      2 ≤ (sanitizeName ".x").length ∧
      sanitizeName "a" = "_a" := by
  refine ⟨by decide, by decide, by decide, by decide⟩

/-- Claim C9 counterexample: `AttachmentSelect.__init__` sets `max_values`
to the full attachment count with no 25-cap, so with 26 attachments a
26-element selection is allowed, exceeding 25. -/
theorem attachmentSelect_exceeds_cap :
    attachmentSelectMaxValues 26 = 26 ∧ ¬ attachmentSelectMaxValues 26 ≤ 25 := by
  decide

/-- Claim C9 amended: the expression and guild selects cap `max_values` at
25 via `min(25, count)`, but the attachment select's `max_values` equals the
attachment count, so only selections over at most 25 offered attachments are
bounded by 25. -/
theorem selectMaxValues_caps (n : Nat) :
    expressionSelectMaxValues n ≤ 25 ∧ guildSelectMaxValues n ≤ 25 ∧
      attachmentSelectMaxValues n = n :=
  ⟨Nat.min_le_left _ _, Nat.min_le_left _ _, rfl⟩

/-- Claim C10: for every non-empty filename the derived asset name has
length at least 2 and contains only word characters; the padding step
prepends exactly one underscore, so the empty filename derives "_" of
length 1. -/
theorem sanitizeName_nonempty_bounds (s : String) (h : s ≠ "") :
    2 ≤ (sanitizeName s).length ∧
      (∀ c ∈ (sanitizeName s).data, isWordChar c = true) ∧
      sanitizeName "" = "_" := by
  have hdata : s.data ≠ [] := by
    intro hnil
    exact h (by cases s; simp_all)
  have hp := sanitizeList_props hdata
  exact ⟨hp.1, hp.2, by decide⟩

/-- Witness for C10 at the one-character filename "a". -/
theorem sanitizeName_nonempty_bounds_witness :
    2 ≤ (sanitizeName "a").length :=
  (sanitizeName_nonempty_bounds "a" (by decide)).1

end EmojiCopier
